import Mathlib

set_option maxRecDepth 10000

/- Shallow embedding of the rpc-cache-cf-worker Cloudflare Worker (src/index.ts):
   an edge caching proxy for JSON-RPC requests.  Machine words are modelled as
   Nat reduced mod 2^32 where overflow matters. -/

/-- Concatenate a list of lists. -/
def listFlat {α : Type} : List (List α) → List α
  | [] => []
  | l :: ls => l ++ listFlat ls

/-- Reduce to a 32-bit word. -/
def u32 (n : Nat) : Nat := n % 4294967296

/-- Rotate a 32-bit word left by `s` bits (for `x < 2^32`, `0 < s < 32`),
expressed arithmetically. -/
def rotl32 (x s : Nat) : Nat := u32 (x * 2 ^ s + x / 2 ^ (32 - s))

/-- Bitwise complement of a 32-bit word. -/
def not32 (b : Nat) : Nat := Nat.xor b 4294967295

/-- MD5 round function F. -/
def mdF (b c d : Nat) : Nat := Nat.lor (Nat.land b c) (Nat.land (not32 b) d)

/-- MD5 round function G. -/
def mdG (b c d : Nat) : Nat := Nat.lor (Nat.land d b) (Nat.land (not32 d) c)

/-- MD5 round function H. -/
def mdH (b c d : Nat) : Nat := Nat.xor b (Nat.xor c d)

/-- MD5 round function I. -/
def mdI (b c d : Nat) : Nat := Nat.xor c (Nat.lor b (not32 d))

/-- MD5 sine-derived constant table (RFC 1321). -/
def mdK : List Nat :=
  [0xd76aa478, 0xe8c7b756, 0x242070db, 0xc1bdceee,
   0xf57c0faf, 0x4787c62a, 0xa8304613, 0xfd469501,
   0x698098d8, 0x8b44f7af, 0xffff5bb1, 0x895cd7be,
   0x6b901122, 0xfd987193, 0xa679438e, 0x49b40821,
   0xf61e2562, 0xc040b340, 0x265e5a51, 0xe9b6c7aa,
   0xd62f105d, 0x02441453, 0xd8a1e681, 0xe7d3fbc8,
   0x21e1cde6, 0xc33707d6, 0xf4d50d87, 0x455a14ed,
   0xa9e3e905, 0xfcefa3f8, 0x676f02d9, 0x8d2a4c8a,
   0xfffa3942, 0x8771f681, 0x6d9d6122, 0xfde5380c,
   0xa4beea44, 0x4bdecfa9, 0xf6bb4b60, 0xbebfbc70,
   0x289b7ec6, 0xeaa127fa, 0xd4ef3085, 0x04881d05,
   0xd9d4d039, 0xe6db99e5, 0x1fa27cf8, 0xc4ac5665,
   0xf4292244, 0x432aff97, 0xab9423a7, 0xfc93a039,
   0x655b59c3, 0x8f0ccc92, 0xffeff47d, 0x85845dd1,
   0x6fa87e4f, 0xfe2ce6e0, 0xa3014314, 0x4e0811a1,
   0xf7537e82, 0xbd3af235, 0x2ad7d2bb, 0xeb86d391]

/-- MD5 per-operation left-rotation amounts. -/
def mdS : List Nat :=
  [7, 12, 17, 22, 7, 12, 17, 22, 7, 12, 17, 22, 7, 12, 17, 22,
   5, 9, 14, 20, 5, 9, 14, 20, 5, 9, 14, 20, 5, 9, 14, 20,
   4, 11, 16, 23, 4, 11, 16, 23, 4, 11, 16, 23, 4, 11, 16, 23,
   6, 10, 15, 21, 6, 10, 15, 21, 6, 10, 15, 21, 6, 10, 15, 21]

/-- MD5 running state: four 32-bit words. -/
structure MDSt where
  a : Nat
  b : Nat
  c : Nat
  d : Nat
deriving Repr, DecidableEq

/-- One of the 64 MD5 operations on a block whose words are `m`. -/
def mdStep (m : List Nat) (st : MDSt) (i : Nat) : MDSt :=
  let f :=
    if i < 16 then mdF st.b st.c st.d
    else if i < 32 then mdG st.b st.c st.d
    else if i < 48 then mdH st.b st.c st.d
    else mdI st.b st.c st.d
  let g :=
    if i < 16 then i
    else if i < 32 then (5 * i + 1) % 16
    else if i < 48 then (3 * i + 5) % 16
    else (7 * i) % 16
  let tmp := u32 (st.a + f + mdK.getD i 0 + m.getD g 0)
  { a := st.d, b := u32 (st.b + rotl32 tmp (mdS.getD i 0)), c := st.b, d := st.c }

/-- Split a 64-byte block into sixteen little-endian 32-bit words. -/
def mdWords (block : List Nat) : List Nat :=
  (List.range 16).map (fun j =>
    block.getD (4 * j) 0 + block.getD (4 * j + 1) 0 * 256 +
    block.getD (4 * j + 2) 0 * 65536 + block.getD (4 * j + 3) 0 * 16777216)

/-- MD5 compression of one 64-byte block. -/
def mdCompress (st : MDSt) (block : List Nat) : MDSt :=
  let m := mdWords block
  let r := (List.range 64).foldl (mdStep m) st
  { a := u32 (st.a + r.a), b := u32 (st.b + r.b),
    c := u32 (st.c + r.c), d := u32 (st.d + r.d) }

/-- Split a byte list into 64-byte chunks (fuel-driven; the fuel is the list
length, which bounds the number of chunks). -/
def mdChunksF : Nat → List Nat → List (List Nat)
  | 0, _ => []
  | _, [] => []
  | fuel + 1, l => l.take 64 :: mdChunksF fuel (l.drop 64)

/-- UTF-8 encoding of one character (as byte values), as `TextEncoder` does. -/
def utf8Char (c : Char) : List Nat :=
  let n := c.toNat
  if n < 128 then [n]
  else if n < 2048 then [192 + n / 64, 128 + n % 64]
  else if n < 65536 then [224 + n / 4096, 128 + n / 64 % 64, 128 + n % 64]
  else [240 + n / 262144, 128 + n / 4096 % 64, 128 + n / 64 % 64, 128 + n % 64]

/-- UTF-8 encoding of a string, as the platform TextEncoder does. -/
def utf8Bytes (s : String) : List Nat := listFlat (s.data.map utf8Char)

/-- MD5 padding: append 0x80, zero-pad to 56 mod 64, then the 64-bit
little-endian bit length. -/
def mdPad (msg : List Nat) : List Nat :=
  let n := msg.length
  let zeros := (120 - (n + 1) % 64) % 64
  msg ++ 128 :: (List.replicate zeros 0 ++
    (List.range 8).map (fun i => n * 8 / 2 ^ (8 * i) % 256))

/-- Little-endian bytes of a 32-bit word. -/
def wordLEBytes (w : Nat) : List Nat :=
  [w % 256, w / 256 % 256, w / 65536 % 256, w / 16777216 % 256]

/-- Lowercase hex digit. -/
def hexDigitCh (n : Nat) : Char :=
  if n < 10 then Char.ofNat (48 + n) else Char.ofNat (87 + n)

/-- Two lowercase hex digits of a byte, zero padded, as the hex rendering in
the source performs with toString and padStart. -/
def byteHexChars (b : Nat) : List Char := [hexDigitCh (b / 16 % 16), hexDigitCh (b % 16)]

/-- Full MD5 digest of the UTF-8 bytes of a string, rendered as lowercase hex. -/
def md5hex (s : String) : String :=
  let msg := mdPad (utf8Bytes s)
  let st := (mdChunksF msg.length msg).foldl mdCompress
    { a := 0x67452301, b := 0xefcdab89, c := 0x98badcfe, d := 0x10325476 }
  String.mk (listFlat ((wordLEBytes st.a ++ wordLEBytes st.b ++
    wordLEBytes st.c ++ wordLEBytes st.d).map byteHexChars))

/-- The helper named `sha1` in the source: despite its name it hashes with MD5
(its own comment says it hashes with md5 for speed) over the UTF-8 encoded
message and returns the bytes as lowercase hex. -/
def sha1 (message : String) : String := md5hex message

/- JSON value model.  JSON numbers are modelled as integers: every numeric
literal appearing in the data of this repository (JSON-RPC ids, indices, results
used in the claims) is integral, and the parser below rejects fraction and
exponent forms instead of approximating them. -/

/-- A JSON value.  Object fields keep insertion order, as JS objects do. -/
inductive Json where
  | null : Json
  | bool : Bool → Json
  | num : Int → Json
  | str : String → Json
  | arr : List Json → Json
  | obj : List (String × Json) → Json
deriving Repr

/-- JS property assignment `o[k] = v` (also how `JSON.parse` resolves duplicate
keys): replace in place if the key exists, else append. -/
def objInsert : List (String × Json) → String → Json → List (String × Json)
  | [], k, v => [(k, v)]
  | (k', v') :: rest, k, v =>
    if k' = k then (k', v) :: rest else (k', v') :: objInsert rest k v

/-- JS the `in` operator on a parsed JSON object. -/
def objHasKey (fields : List (String × Json)) (k : String) : Bool :=
  fields.any (fun f => f.1 == k)

/-- Escape one character as `JSON.stringify` renders string contents. -/
def escJsonChar (c : Char) : List Char :=
  if c = '"' then ['\\', '"']
  else if c = '\\' then ['\\', '\\']
  else if c = '\x08' then ['\\', 'b']
  else if c = '\x09' then ['\\', 't']
  else if c = '\x0a' then ['\\', 'n']
  else if c = '\x0c' then ['\\', 'f']
  else if c = '\x0d' then ['\\', 'r']
  else if c.toNat < 32 then ['\\', 'u', '0', '0', hexDigitCh (c.toNat / 16), hexDigitCh (c.toNat % 16)]
  else [c]

/-- A string rendered as a quoted JSON string literal. -/
def strQuote (s : String) : String :=
  "\"" ++ String.mk (listFlat (s.data.map escJsonChar)) ++ "\""

mutual

/-- Serialization exactly as `JSON.stringify` with no spacing options: object
fields in insertion order, arrays in order, minimal separators. -/
def Json.stringify : Json → String
  | Json.null => "null"
  | Json.bool true => "true"
  | Json.bool false => "false"
  | Json.num n => toString n
  | Json.str s => strQuote s
  | Json.arr xs => "[" ++ stringifyElems xs ++ "]"
  | Json.obj fs => "\x7b" ++ stringifyFields fs ++ "\x7d"

/-- Comma-joined serializations of array elements. -/
def stringifyElems : List Json → String
  | [] => ""
  | [x] => Json.stringify x
  | x :: y :: xs => Json.stringify x ++ "," ++ stringifyElems (y :: xs)

/-- Comma-joined `"key":value` serializations of object fields. -/
def stringifyFields : List (String × Json) → String
  | [] => ""
  | [(k, v)] => strQuote k ++ ":" ++ Json.stringify v
  | (k, v) :: f :: fs => strQuote k ++ ":" ++ Json.stringify v ++ "," ++ stringifyFields (f :: fs)

end

/-- JSON whitespace. -/
def isJsonWs (c : Char) : Bool := c = ' ' || c = '\x09' || c = '\x0a' || c = '\x0d'

/-- Drop leading JSON whitespace. -/
def skipWs : List Char → List Char
  | [] => []
  | c :: cs => if isJsonWs c then skipWs cs else c :: cs

/-- Value of a hex digit, if any. -/
def hexVal? (c : Char) : Option Nat :=
  if '0' ≤ c ∧ c ≤ '9' then some (c.toNat - 48)
  else if 'a' ≤ c ∧ c ≤ 'f' then some (c.toNat - 87)
  else if 'A' ≤ c ∧ c ≤ 'F' then some (c.toNat - 55)
  else none

/-- Parse the remainder of a JSON string literal (after the opening quote),
accumulating characters in reverse.  Surrogate `\u` escapes are rejected (a
Lean `Char` cannot hold a lone surrogate; no claim involves them). -/
def parseStrRest (acc : List Char) : List Char → Option (String × List Char)
  | [] => none
  | '"' :: rest => some (String.mk acc.reverse, rest)
  | '\\' :: '"' :: rest => parseStrRest ('"' :: acc) rest
  | '\\' :: '\\' :: rest => parseStrRest ('\\' :: acc) rest
  | '\\' :: '/' :: rest => parseStrRest ('/' :: acc) rest
  | '\\' :: 'b' :: rest => parseStrRest ('\x08' :: acc) rest
  | '\\' :: 'f' :: rest => parseStrRest ('\x0c' :: acc) rest
  | '\\' :: 'n' :: rest => parseStrRest ('\x0a' :: acc) rest
  | '\\' :: 'r' :: rest => parseStrRest ('\x0d' :: acc) rest
  | '\\' :: 't' :: rest => parseStrRest ('\x09' :: acc) rest
  | '\\' :: 'u' :: a :: b :: c :: d :: rest =>
    (match hexVal? a, hexVal? b, hexVal? c, hexVal? d with
     | some ha, some hb, some hc, some hd =>
       let n := ((ha * 16 + hb) * 16 + hc) * 16 + hd
       if n < 0xd800 ∨ 0xdfff < n then parseStrRest (Char.ofNat n :: acc) rest else none
     | _, _, _, _ => none)
  | '\\' :: _ => none
  | c :: rest => if c.toNat < 32 then none else parseStrRest (c :: acc) rest

/-- Consume a run of decimal digits, extending an accumulated value. -/
def takeDigits : Nat → List Char → Nat × List Char
  | n, [] => (n, [])
  | n, c :: rest =>
    if c.isDigit then takeDigits (n * 10 + (c.toNat - 48)) rest else (n, c :: rest)

/-- Parse the integer part of a JSON number (JSON forbids leading zeros). -/
def parseNatNum : List Char → Option (Nat × List Char)
  | [] => none
  | '0' :: rest => if (rest.head?.map Char.isDigit).getD false then none else some (0, rest)
  | c :: rest => if c.isDigit then some (takeDigits (c.toNat - 48) rest) else none

mutual

/-- Parse one JSON value.  Fuel-driven: every recursive call follows consuming
at least one input character, so fuel `length + 1` always suffices. -/
def parseVal : Nat → List Char → Option (Json × List Char)
  | 0, _ => none
  | fuel + 1, cs =>
    match skipWs cs with
    | [] => none
    | '\x7b' :: rest =>
      (match skipWs rest with
       | '\x7d' :: rest' => some (Json.obj [], rest')
       | cs' => parseMembers fuel [] cs')
    | '[' :: rest =>
      (match skipWs rest with
       | ']' :: rest' => some (Json.arr [], rest')
       | cs' => parseElems fuel [] cs')
    | '"' :: rest => (parseStrRest [] rest).map (fun p => (Json.str p.1, p.2))
    | 't' :: 'r' :: 'u' :: 'e' :: rest => some (Json.bool true, rest)
    | 'f' :: 'a' :: 'l' :: 's' :: 'e' :: rest => some (Json.bool false, rest)
    | 'n' :: 'u' :: 'l' :: 'l' :: rest => some (Json.null, rest)
    | '-' :: rest => (parseNatNum rest).map (fun p => (Json.num (-(p.1 : Int)), p.2))
    | cs' => (parseNatNum cs').map (fun p => (Json.num (p.1 : Int), p.2))

/-- Parse object members from a position where a key is required (start of a
non-empty object, or just after a comma — so trailing commas are rejected). -/
def parseMembers : Nat → List (String × Json) → List Char → Option (Json × List Char)
  | 0, _, _ => none
  | fuel + 1, acc, cs =>
    match cs with
    | '"' :: rest =>
      (match parseStrRest [] rest with
       | none => none
       | some (k, r1) =>
         match skipWs r1 with
         | ':' :: r2 =>
           (match parseVal fuel r2 with
            | none => none
            | some (v, r3) =>
              match skipWs r3 with
              | ',' :: r4 => parseMembers fuel (objInsert acc k v) (skipWs r4)
              | '\x7d' :: r4 => some (Json.obj (objInsert acc k v), r4)
              | _ => none)
         | _ => none)
    | _ => none

/-- Parse array elements from a position where a value is required. -/
def parseElems : Nat → List Json → List Char → Option (Json × List Char)
  | 0, _, _ => none
  | fuel + 1, acc, cs =>
    match parseVal fuel cs with
    | none => none
    | some (v, r1) =>
      match skipWs r1 with
      | ',' :: r2 => parseElems fuel (acc ++ [v]) r2
      | ']' :: r2 => some (Json.arr (acc ++ [v]), r2)
      | _ => none

end

/-- `JSON.parse`: parse a complete JSON text (integer numerals only, see
above); `none` models the `SyntaxError` that `JSON.parse` throws. -/
def Json.parse (s : String) : Option Json :=
  match parseVal (s.data.length + 1) s.data with
  | some (j, rest) => if (skipWs rest).isEmpty then some j else none
  | none => none

/- The data model of the worker: requests, responses and its environment.  The
environment packages the external collaborators of the worker: the edge cache
(`caches.default`, keyed by the cache-key URL string, yielding the cached
response body text when a response is present) and the origin `fetch`
(called with the overridden request body; `none` models `body: undefined`).
`Except.error` models a thrown exception / rejected promise throughout. -/

/-- An inbound request as the worker reads it: URL split as origin part plus
pathname, method, the headers the worker consults, and the body text. -/
structure Request where
  urlBase : String
  urlPath : String
  method : String
  contentType : Option String
  origin : Option String
  acrMethod : Option String
  acrHeaders : Option String
  body : String
deriving Repr, DecidableEq

/-- An origin (upstream) response: status, content type and body text. -/
structure OriginResponse where
  status : Nat
  contentType : Option String
  body : String
deriving Repr, DecidableEq

/-- An outbound response built by the worker. -/
structure HttpResponse where
  status : Nat
  body : String
  headers : List (String × String)
deriving Repr, DecidableEq

/-- The external collaborators of the worker.  `passthru` is the response of the
final `fetch(request)` passthrough for non-GET/POST/OPTIONS methods. -/
structure Env where
  cache : String → Option String
  originFetch : Option String → Except String OriginResponse
  passthru : Except String HttpResponse

/-- One element of `bodiesWithResponses`: a call body, its original index, the
response body found or backfilled for it (`none` = `undefined`), and the
`cached` flag set at lookup time. -/
structure BodyEntry where
  body : String
  index : Nat
  response : Option String
  cached : Bool
deriving Repr, DecidableEq

/-- Result of the miss-dispatch phase: either the HTML passthrough
short-circuit, or the updated entries plus the cache writes issued
(`ctx.waitUntil(cache.put(key, response))`, recorded as key/body pairs). -/
inductive DispatchOut where
  | shortCircuit : HttpResponse → DispatchOut
  | done : List BodyEntry → List (String × String) → DispatchOut
deriving Repr, DecidableEq

/-- JS string truthiness: non-empty. -/
def strTruthy (s : String) : Bool := !s.data.isEmpty

/-- JS truthiness of `string | undefined`, as in `!!responseBody`. -/
def jsTruthy : Option String → Bool
  | none => false
  | some s => strTruthy s

/-- JS test of whether the body text begins with an opening brace, as in the
source check `body.startsWith` applied to the brace character. -/
def jsStartsWithBrace (s : String) : Bool := s.data.head? == some '\x7b'

/-- ASCII uppercase of one character. -/
def upChar (c : Char) : Char :=
  if 'a' ≤ c ∧ c ≤ 'z' then Char.ofNat (c.toNat - 32) else c

/-- JS `method.toUpperCase()` (ASCII suffices for HTTP methods). -/
def toUpperAscii (s : String) : String := String.mk (s.data.map upChar)

/-- Match `pat` against the start of a character list, returning the rest. -/
def dropPref : List Char → List Char → Option (List Char)
  | [], cs => some cs
  | _, [] => none
  | p :: ps, c :: cs => if p = c then dropPref ps cs else none

/-- Does `p` hold of some suffix?  This is the unanchored search that JS
`RegExp.prototype.test` performs: try every start position. -/
def anyPos (p : List Char → Bool) : List Char → Bool
  | [] => p []
  | c :: cs => p (c :: cs) || anyPos p cs

/-- JS `/localhost:.+/.test(s)`: unanchored, so it holds iff "localhost:"
occurs somewhere followed by at least one character. -/
def testLocalhost (s : String) : Bool :=
  anyPos (fun cs =>
    match dropPref "localhost:".data cs with
    | some rest => !rest.isEmpty
    | none => false) s.data

/-- JS `/(.+\.)?daodao\.zone/.test(s)`: unanchored, and the leading group is
optional, so (the search trying every start position) it holds iff
"daodao.zone" occurs as a substring — anywhere, not only as a host suffix. -/
def testDaoDao (s : String) : Bool :=
  anyPos (fun cs => (dropPref "daodao.zone".data cs).isSome) s.data

/-- JS `/.+\-da0da0\.vercel\.app/.test(s)`: unanchored with a mandatory `.+`
before the literal, so it holds iff "-da0da0.vercel.app" occurs at any
position ≥ 1. -/
def testVercel (s : String) : Bool :=
  match s.data with
  | [] => false
  | _ :: cs => anyPos (fun l => (dropPref "-da0da0.vercel.app".data l).isSome) cs

/-- The `ALLOWED_ORIGINS` regex list of the source, as test functions. -/
def ALLOWED_ORIGINS : List (String → Bool) := [testLocalhost, testDaoDao, testVercel]

/-- `ALLOWED_ORIGINS.some((r) => r.test(origin))`. -/
def isAllowedOrigin (origin : String) : Bool := ALLOWED_ORIGINS.any (fun r => r origin)

/-- Cache TTL attached to stored responses (`s-maxage=1`). -/
def CACHE_SECONDS : Nat := 1

/-- Body normalization inside `cacheKeyForRequestAndBody`: if the body is
truthy and starts with a brace, parse it, and if the object has an `id`
field, set `id` to -1 and re-serialize; otherwise leave the body unchanged.
A JSON text whose first character is a brace can only parse as an object, so
the non-object arms are unreachable for successful parses. -/
def normalizeBody (body : String) : Except String String :=
  if strTruthy body && jsStartsWithBrace body then
    match Json.parse body with
    | none => Except.error "Unexpected token in JSON"
    | some (Json.obj fields) =>
      if objHasKey fields "id" then
        Except.ok (Json.stringify (Json.obj (objInsert fields "id" (Json.num (-1)))))
      else Except.ok body
    | some _ => Except.ok body
  else Except.ok body

/-- The function `cacheKeyForRequestAndBody` of the source: normalize the body,
hash it when truthy (an empty body contributes the empty string, not a
digest), and return the cache key
URL — the request URL with the hash appended to its pathname.  The cache key
`Request` is matched by this URL (fixed GET method), so the URL string is the
key identity. -/
def cacheKeyForRequestAndBody (req : Request) (body : String) : Except String String :=
  match normalizeBody body with
  | Except.error e => Except.error e
  | Except.ok nb =>
    Except.ok (req.urlBase ++ req.urlPath ++ (if strTruthy nb then sha1 nb else ""))

/-- The payload split at the top of `fetch`: JSON content type means parse the
body and stringify each array element individually (or the whole value if not
an array); any other content type means a single raw-text body. -/
def splitBodies (req : Request) : Except String (List String) :=
  if req.contentType = some "application/json" then
    match Json.parse req.body with
    | none => Except.error "Unexpected token in JSON"
    | some (Json.arr xs) => Except.ok (xs.map Json.stringify)
    | some j => Except.ok [Json.stringify j]
  else Except.ok [req.body]

/-- The parallel cache-lookup phase (`Promise.all` over `bodies`), from start
index `i`: each body gets its cache key, the cache is consulted, and the entry
records the body text found (if a response was present) and
`cached := !!responseBody`. -/
def resolveEntriesFrom (env : Env) (req : Request) : Nat → List String → Except String (List BodyEntry)
  | _, [] => Except.ok []
  | i, b :: bs =>
    match cacheKeyForRequestAndBody req b with
    | Except.error e => Except.error e
    | Except.ok key =>
      match resolveEntriesFrom env req (i + 1) bs with
      | Except.error e => Except.error e
      | Except.ok rest =>
        Except.ok (⟨b, i, env.cache key, jsTruthy (env.cache key)⟩ :: rest)

/-- Cache lookups for all bodies, indices from 0. -/
def resolveEntries (env : Env) (req : Request) (bodies : List String) :
    Except String (List BodyEntry) :=
  resolveEntriesFrom env req 0 bodies

/-- `bodiesWithResponses[index].response = responseBody` — positional update
(entry at position `index`); only the `response` field changes. -/
def setResponse : List BodyEntry → Nat → String → List BodyEntry
  | [], _, _ => []
  | e :: es, 0, r => ⟨e.body, e.index, some r, e.cached⟩ :: es
  | e :: es, n + 1, r => e :: setResponse es n r

/-- `uncachedBodies.map(({ body }) => JSON.parse(body))`. -/
def parseAllBodies : List BodyEntry → Except String (List Json)
  | [] => Except.ok []
  | e :: es =>
    match Json.parse e.body with
    | none => Except.error "Unexpected token in JSON"
    | some j =>
      match parseAllBodies es with
      | Except.error err => Except.error err
      | Except.ok js => Except.ok (j :: js)

/-- The body the worker sends to the origin: for more than one miss, the
re-batched JSON array of the parsed bodies of the misses; for a single miss,
the raw body of that miss as-is (undefined when the body is empty). -/
def upstreamRequestBody (uncached : List BodyEntry) : Except String (Option String) :=
  if uncached.length > 1 then
    match parseAllBodies uncached with
    | Except.error e => Except.error e
    | Except.ok parsed => Except.ok (some (Json.stringify (Json.arr parsed)))
  else
    match uncached with
    | [e] => Except.ok (if strTruthy e.body then some e.body else none)
    | _ => Except.ok none

/-- The backfill loop (`Promise.all` over `uncachedBodies` zipped with
`uncachedResponses`): stringify each result, issue a cache write under the
key of the call, and write the result body into the entry at the original
index of the call.  The `cached` flag is never touched. -/
def applyResults (req : Request) : List BodyEntry → List (BodyEntry × Json) →
    Except String (List BodyEntry × List (String × String))
  | entries, [] => Except.ok (entries, [])
  | entries, (u, r) :: rest =>
    match cacheKeyForRequestAndBody req u.body with
    | Except.error e => Except.error e
    | Except.ok key =>
      match applyResults req (setResponse entries u.index (Json.stringify r)) rest with
      | Except.error e => Except.error e
      | Except.ok (entries', puts) =>
        Except.ok (entries', (key, Json.stringify r) :: puts)

/-- An origin response returned verbatim to the caller. -/
def originToHttp (r : OriginResponse) : HttpResponse :=
  { status := r.status, body := r.body,
    headers :=
      match r.contentType with
      | some ct => [("content-type", ct)]
      | none => [] }

/-- The miss-dispatch phase.  No miss: nothing happens.  More than one miss:
one re-batched origin call whose JSON response must be an array (else a
shape error) of exactly as many elements as misses (else a count error),
then backfill.  Exactly one miss: the origin is called with that sole raw
body; an HTML response short-circuits the whole request verbatim, otherwise
the JSON response becomes the one result and is backfilled. -/
def dispatchAndBackfill (env : Env) (req : Request) (entries : List BodyEntry) :
    Except String DispatchOut :=
  let uncachedBodies := entries.filter (fun e => !e.cached)
  if uncachedBodies.length > 0 then
    match upstreamRequestBody uncachedBodies with
    | Except.error e => Except.error e
    | Except.ok ub =>
      if uncachedBodies.length > 1 then
        match env.originFetch ub with
        | Except.error e => Except.error e
        | Except.ok uncachedResponse =>
          match Json.parse uncachedResponse.body with
          | none => Except.error "Unexpected token in JSON"
          | some (Json.arr uncachedResponses) =>
            if uncachedBodies.length ≠ uncachedResponses.length then
              Except.error "Batched responses do not matched uncached requests."
            else
              (match applyResults req entries (uncachedBodies.zip uncachedResponses) with
               | Except.error e => Except.error e
               | Except.ok (entries', puts) => Except.ok (DispatchOut.done entries' puts))
          | some _ => Except.error "Batched responses should be an array of responses."
      else
        match env.originFetch ub with
        | Except.error e => Except.error e
        | Except.ok uncachedResponse =>
          if uncachedResponse.contentType = some "text/html" then
            Except.ok (DispatchOut.shortCircuit (originToHttp uncachedResponse))
          else
            match Json.parse uncachedResponse.body with
            | none => Except.error "Unexpected token in JSON"
            | some r =>
              match applyResults req entries (uncachedBodies.zip [r]) with
              | Except.error e => Except.error e
              | Except.ok (entries', puts) => Except.ok (DispatchOut.done entries' puts)
  else Except.ok (DispatchOut.done entries [])

/-- One element of the final batch body: `response && JSON.parse(response)` —
`undefined` stringifies as `null` inside an array, an empty string
short-circuits to the empty string, anything else is parsed. -/
def entryFinalJson (e : BodyEntry) : Except String Json :=
  match e.response with
  | none => Except.ok Json.null
  | some s =>
    if strTruthy s then
      match Json.parse s with
      | none => Except.error "Unexpected token in JSON"
      | some j => Except.ok j
    else Except.ok (Json.str "")

/-- `bodiesWithResponses.map(({ response }) => response && JSON.parse(response))`. -/
def mapEntriesJson : List BodyEntry → Except String (List Json)
  | [] => Except.ok []
  | e :: es =>
    match entryFinalJson e with
    | Except.error err => Except.error err
    | Except.ok j =>
      match mapEntriesJson es with
      | Except.error err => Except.error err
      | Except.ok js => Except.ok (j :: js)

/-- The conditional CORS header spread: present iff the origin passes the
allow-list test, echoing the own origin of the caller. -/
def corsHeaders (origin : String) : List (String × String) :=
  if isAllowedOrigin origin then [("Access-Control-Allow-Origin", origin)] else []

/-- Value of the `Cached` header in the batch shape: the JSON array of the
original indices of the entries flagged as cached. -/
def cachedIdxHeader (entries : List BodyEntry) : String :=
  Json.stringify (Json.arr
    ((entries.filter (fun e => e.cached)).map (fun e => Json.num (Int.ofNat e.index))))

/-- Final response assembly.  Exactly one entry: its response body is returned
as-is (no array wrapping) with a boolean `Cached` header.  Any other count:
the JSON array of all entry results in list order, with the hit-index list as
the `Cached` header.  (`new Response` defaults to status 200.) -/
def assemble (origin : String) (entries : List BodyEntry) : Except String HttpResponse :=
  match entries with
  | [e] =>
    Except.ok
      { status := 200, body := (e.response).getD "",
        headers := [("Content-Type", "application/json"),
                    ("Cached", Json.stringify (Json.bool e.cached))] ++ corsHeaders origin }
  | es =>
    match mapEntriesJson es with
    | Except.error err => Except.error err
    | Except.ok elems =>
      Except.ok
        { status := 200, body := Json.stringify (Json.arr elems),
          headers := [("Content-Type", "application/json"),
                      ("Cached", cachedIdxHeader es)] ++ corsHeaders origin }

/-- The OPTIONS branch: a preflight (origin present, a request-method header
present, a truthy request-headers header, allowed origin) gets the CORS grant;
anything else gets a bare `Allow` response. -/
def optionsResponse (req : Request) (origin : String) : HttpResponse :=
  if strTruthy origin && req.acrMethod.isSome && jsTruthy req.acrHeaders &&
      isAllowedOrigin origin then
    { status := 200, body := "",
      headers := [("Access-Control-Allow-Origin", origin),
                  ("Access-Control-Allow-Methods", "GET,HEAD,POST,OPTIONS"),
                  ("Access-Control-Max-Age", "86400"),
                  ("Access-Control-Allow-Headers", (req.acrHeaders).getD "")] }
  else
    { status := 200, body := "", headers := [("Allow", "GET, HEAD, POST, OPTIONS")] }

/-- The body of the `try` block in `fetch`, paired with the cache writes that
were issued before the result (or the throw) was reached.  Writes issued via
`ctx.waitUntil` survive a later throw, which is why the write list accompanies
the error case too. -/
def handleTry (env : Env) (req : Request) :
    Except String HttpResponse × List (String × String) :=
  let origin := (req.origin).getD ""
  let method := toUpperAscii req.method
  if method == "GET" || method == "POST" then
    match splitBodies req with
    | Except.error e => (Except.error e, [])
    | Except.ok bodies =>
      match resolveEntries env req bodies with
      | Except.error e => (Except.error e, [])
      | Except.ok entries =>
        match dispatchAndBackfill env req entries with
        | Except.error e => (Except.error e, [])
        | Except.ok (DispatchOut.shortCircuit r) => (Except.ok r, [])
        | Except.ok (DispatchOut.done entries' puts) =>
          match assemble origin entries' with
          | Except.error e => (Except.error e, puts)
          | Except.ok r => (Except.ok r, puts)
  else if method == "OPTIONS" then (Except.ok (optionsResponse req origin), [])
  else
    match env.passthru with
    | Except.error e => (Except.error e, [])
    | Except.ok r => (Except.ok r, [])

/-- The top-level catch: any thrown error becomes a plain-text diagnostic
response.  The Response constructor applied to the concatenated message
defaults to HTTP status 200
with a text/plain content type. -/
def errResponse (e : String) : HttpResponse :=
  { status := 200, body := "Error thrown " ++ e,
    headers := [("Content-Type", "text/plain;charset=UTF-8")] }

/-- The whole `fetch` entrypoint: run the try block and convert an error into
the diagnostic response, keeping whatever cache writes were already issued. -/
def handleFetch (env : Env) (req : Request) : HttpResponse × List (String × String) :=
  match handleTry env req with
  | (Except.ok r, puts) => (r, puts)
  | (Except.error e, puts) => (errResponse e, puts)

/- Concrete fixtures used by the closed theorems below. -/

/-- A request to a fixed RPC endpoint with the given method, content type,
origin header and body. -/
def mkReq (m : String) (ct og : Option String) (b : String) : Request :=
  { urlBase := "https://rpc.example.com", urlPath := "/", method := m,
    contentType := ct, origin := og, acrMethod := none, acrHeaders := none, body := b }

/-- A JSON POST request with the given body. -/
def reqJsonOf (b : String) : Request := mkReq "POST" (some "application/json") none b

/-- An environment from a cache function and an origin fetch function (the
passthrough collaborator is never consulted by the claims). -/
def envOf (c : String → Option String) (f : Option String → Except String OriginResponse) : Env :=
  { cache := c, originFetch := f, passthru := Except.error "unused" }

/-- An origin that always answers with the given JSON body. -/
def jsonOrigin (b : String) : Option String → Except String OriginResponse :=
  fun _ => Except.ok { status := 200, contentType := some "application/json", body := b }

/-- An origin whose fetch always fails (network error). -/
def noOrigin : Option String → Except String OriginResponse :=
  fun _ => Except.error "network error"

/-- Default entry used only as the `List.getD` fallback in theorem statements. -/
def dfltEntry : BodyEntry := { body := "", index := 0, response := none, cached := false }

/-- The fields of an entry that the backfill phase never changes. -/
def projEntry (e : BodyEntry) : String × Nat × Bool := (e.body, e.index, e.cached)

/-- Suffix test on strings (used to state that a host is not a subdomain of
the production domain). -/
def strEndsWith (s pat : String) : Bool := List.isSuffixOf pat.data s.data

/-- Fixture for C1: requests share this path. -/
def c1Req : Request := reqJsonOf ""

/-- Fixture for C2: a batch of exactly one call. -/
def c2Req : Request := reqJsonOf "[\x7b\"id\":1\x7d]"

/-- Fixture for C2: every lookup hits with a stored result object. -/
def c2Env : Env := envOf (fun _ => some "\x7b\"r\":2\x7d") noOrigin

/-- Fixture for C3/C4/C5: a batch of two integer calls. -/
def reqBatch12 : Request := reqJsonOf "[1,2]"

/-- Fixture for C3: all misses; the origin answers with a JSON object, not an
array. -/
def c3EnvObj : Env := envOf (fun _ => none) (jsonOrigin "\x7b\x7d")

/-- Fixture for C3/C4: all misses; the origin answers with a one-element array
for a two-miss dispatch. -/
def c3EnvShort : Env := envOf (fun _ => none) (jsonOrigin "[5]")

/-- Fixture for C4 counterexample: a single call. -/
def c4Req : Request := reqJsonOf "1"

/-- Fixture for C4 counterexample: a miss; the origin answers with a
two-element array for the single dispatched miss. -/
def c4Env : Env := envOf (fun _ => none) (jsonOrigin "[1,2]")

/-- Fixture for C5: the first call of `reqBatch12` is cached, the second is
missed and the origin answers it with 7. -/
def c5Env : Env :=
  envOf (fun k => if k = "https://rpc.example.com/" ++ sha1 "1" then some "9" else none)
    (jsonOrigin "7")

/-- Fixture for C6: the cache yields a present response with an empty body. -/
def c6Env : Env := envOf (fun _ => some "") noOrigin

/-- Fixture for C8: entries of a three-call batch after lookup, where the two
leading calls hit and the third missed. -/
def c8Entries : List BodyEntry :=
  [{ body := "\x7b\"m\":1\x7d", index := 0, response := some "5", cached := true },
   { body := "\x7b\"m\":2\x7d", index := 1, response := some "5", cached := true },
   { body := "\x7b\"m\":3\x7d", index := 2, response := none, cached := false }]

/-- Fixture for C8: the origin fetch fails, exposing the body it was given. -/
def c8Env : Env := envOf (fun _ => none) noOrigin

/-- Fixture for C9: a JSON request whose body fails to parse. -/
def c9Req : Request := reqJsonOf "\x7b"

/-- Fixture for C9. -/
def c9Env : Env := envOf (fun _ => none) noOrigin

/-- Fixture for C10: a GET request carrying a hostile Origin header whose
host merely contains the production domain as a substring. -/
def c10Req : Request := mkReq "GET" none (some "https://daodao.zone.evil.example") ""

/-- Fixture for C10: the lookup hits so no origin call happens. -/
def c10Env : Env := envOf (fun _ => some "ok") noOrigin

/-- Fixture for C3: the two entries of `reqBatch12` after lookup when both
miss. -/
def missEntries12 : List BodyEntry :=
  [{ body := "1", index := 0, response := none, cached := false },
   { body := "2", index := 1, response := none, cached := false }]

/-- Fixture for C2/C5: entries of `reqBatch12` under `c5Env` after lookup —
first hit, second miss. -/
def c5EntriesIn : List BodyEntry :=
  [{ body := "1", index := 0, response := some "9", cached := true },
   { body := "2", index := 1, response := none, cached := false }]

/-- Fixture for C2/C5: the same entries after the miss was backfilled with the
origin result 7. -/
def c5EntriesOut : List BodyEntry :=
  [{ body := "1", index := 0, response := some "9", cached := true },
   { body := "2", index := 1, response := some "7", cached := false }]

/-- Fixture for C2/C5: the cache write issued for the backfilled miss. -/
def c5Puts : List (String × String) := [("https://rpc.example.com/" ++ sha1 "2", "7")]

/-- Fixture for C2/C5: the assembled batch response. -/
def c5Resp : HttpResponse :=
  { status := 200, body := "[9,7]",
    headers := [("Content-Type", "application/json"), ("Cached", "[0]")] }

/-- Fixture for C8: the single missed entry of the three-call batch. -/
def c8Miss : BodyEntry :=
  { body := "\x7b\"m\":3\x7d", index := 2, response := none, cached := false }

/- Supporting lemmas. -/

/-- A non-empty string is truthy. -/
theorem strTruthy_of_ne (s : String) (h : s ≠ "") : strTruthy s = true := by
  cases s with
  | mk data =>
    cases data with
    | nil => exact absurd rfl h
    | cons c cs => rfl

/-- A string that starts with a brace is truthy. -/
theorem strTruthy_of_brace (s : String) (h : jsStartsWithBrace s = true) :
    strTruthy s = true := by
  cases s with
  | mk data =>
    cases data with
    | nil => exact absurd h (by decide)
    | cons c cs => rfl

/-- On a body that starts with a brace, parses to an object and carries an
`id` field, normalization rewrites `id` to -1 and re-serializes. -/
theorem normalizeBody_id (b : String) (o : List (String × Json))
    (hs : jsStartsWithBrace b = true) (hp : Json.parse b = some (Json.obj o))
    (hid : objHasKey o "id" = true) :
    normalizeBody b =
      Except.ok (Json.stringify (Json.obj (objInsert o "id" (Json.num (-1))))) := by
  unfold normalizeBody
  rw [strTruthy_of_brace b hs, hs, hp]
  simp [hid]

/-- C1 (amended; as stated the claim fails, see the counterexample): for one
request path and two call bodies that start with an opening brace and are
identical except for the value of their top-level id field, the cache-key
derivation produces the same key — both normalize to the same sentinel form
before hashing. -/
theorem c1_theorem (req : Request) (b1 b2 : String) (o1 o2 : List (String × Json))
    (hs1 : jsStartsWithBrace b1 = true) (hs2 : jsStartsWithBrace b2 = true)
    (hp1 : Json.parse b1 = some (Json.obj o1)) (hp2 : Json.parse b2 = some (Json.obj o2))
    (hid1 : objHasKey o1 "id" = true) (hid2 : objHasKey o2 "id" = true)
    (heq : objInsert o1 "id" (Json.num (-1)) = objInsert o2 "id" (Json.num (-1))) :
    cacheKeyForRequestAndBody req b1 = cacheKeyForRequestAndBody req b2 := by
  unfold cacheKeyForRequestAndBody
  rw [normalizeBody_id b1 o1 hs1 hp1 hid1, normalizeBody_id b2 o2 hs2 hp2 hid2, heq]

/-- C1 witness: two concrete JSON-RPC bodies differing only in id map to one
key. -/
theorem c1_witness :
    cacheKeyForRequestAndBody c1Req "\x7b\"id\":7,\"m\":1\x7d" =
      cacheKeyForRequestAndBody c1Req "\x7b\"id\":8,\"m\":1\x7d" :=
  c1_theorem c1Req _ _ [("id", Json.num 7), ("m", Json.num 1)]
    [("id", Json.num 8), ("m", Json.num 1)] rfl rfl rfl rfl rfl rfl rfl

/-- C1 counterexample: these two call bodies are identical except for the
value of their top-level id field (each is a JSON object with a leading
space), yet the derived cache keys differ: the code only normalizes bodies
whose first character is a brace, so the id sentinel rewrite is skipped and
two different strings are hashed. -/
theorem c1_counterexample :
    (cacheKeyForRequestAndBody c1Req " \x7b\"id\":1\x7d").toOption ≠
    (cacheKeyForRequestAndBody c1Req " \x7b\"id\":2\x7d").toOption := by decide

/-- C6 (amended; as stated the claim fails, see the counterexample): the
lookup phase classifies an entry as cached exactly when a response body is
present and non-empty — a present-but-empty body is conflated with an absent
one and classified as a miss. -/
theorem c6_theorem (env : Env) (req : Request) (i : Nat) (bodies : List String)
    (entries : List BodyEntry)
    (h : resolveEntriesFrom env req i bodies = Except.ok entries) :
    ∀ e ∈ entries,
      (e.response = none → e.cached = false) ∧
      (e.response = some "" → e.cached = false) ∧
      (∀ s, e.response = some s → s ≠ "" → e.cached = true) := by
  induction bodies generalizing i entries with
  | nil =>
    unfold resolveEntriesFrom at h
    cases h
    intro e he
    exact absurd he (List.not_mem_nil e)
  | cons b bs ih =>
    unfold resolveEntriesFrom at h
    cases hk : cacheKeyForRequestAndBody req b with
    | error err => rw [hk] at h; cases h
    | ok key =>
      rw [hk] at h
      cases hr : resolveEntriesFrom env req (i + 1) bs with
      | error err => rw [hr] at h; cases h
      | ok rest =>
        rw [hr] at h
        cases h
        intro e he
        cases he with
        | head =>
          refine ⟨fun hn => ?_, fun hn => ?_, fun s hs hne => ?_⟩
          · show jsTruthy (env.cache key) = false
            have : env.cache key = none := hn
            rw [this]; rfl
          · show jsTruthy (env.cache key) = false
            have : env.cache key = some "" := hn
            rw [this]; rfl
          · show jsTruthy (env.cache key) = true
            have : env.cache key = some s := hs
            rw [this]
            show strTruthy s = true
            exact strTruthy_of_ne s hne
        | tail _ hmem => exact ih (i + 1) rest hr e hmem

/-- C6 witness: the amended classification applied to a concrete lookup whose
cache response is present but empty — the entry is classified as a miss. -/
theorem c6_witness :
    ({ body := "7", index := 0, response := some "", cached := false } : BodyEntry).response =
      some "" ∧
    ({ body := "7", index := 0, response := some "", cached := false } : BodyEntry).cached =
      false :=
  ⟨rfl,
   (c6_theorem c6Env (reqJsonOf "7") 0 ["7"]
      [{ body := "7", index := 0, response := some "", cached := false }] rfl
      { body := "7", index := 0, response := some "", cached := false }
      (by simp)).2.1 rfl⟩

/-- C6 counterexample: the cache returns a present response whose body is the
empty string, and the resolver classifies the call as NOT cached (a miss),
contradicting the claim that an empty-but-present body is a hit. -/
theorem c6_counterexample :
    resolveEntries c6Env (reqJsonOf "7") ["7"] =
      Except.ok [{ body := "7", index := 0, response := some "", cached := false }] := rfl

/-- C7 (amended; as stated the claim fails, see the counterexample): for an
empty body no digest is appended at all — the derived cache-key URL is
exactly the request URL (base and bare path), under which bodiless calls are
still cacheable. -/
theorem c7_theorem (req : Request) :
    cacheKeyForRequestAndBody req "" = Except.ok (req.urlBase ++ req.urlPath) := by
  unfold cacheKeyForRequestAndBody normalizeBody
  simp [strTruthy, String.append_empty]

/-- C7 counterexample: for the empty body the key equals the bare request URL
and is NOT that URL with the digest of the empty string appended — the code
appends the empty string instead of hashing. -/
theorem c7_counterexample :
    cacheKeyForRequestAndBody (mkReq "GET" none none "") "" =
      Except.ok "https://rpc.example.com/" ∧
    "https://rpc.example.com/" ≠ "https://rpc.example.com/" ++ md5hex "" :=
  ⟨rfl, by decide⟩

/-- C9: whatever error the try block of the fetch handler ends with, the
top-level catch converts it into a plain-text diagnostic response with the
HTTP success status 200 and the body prefixed by the fixed marker, keeping
the cache writes already issued. -/
theorem c9_theorem (env : Env) (req : Request) (e : String)
    (puts : List (String × String))
    (h : handleTry env req = (Except.error e, puts)) :
    handleFetch env req = (errResponse e, puts) ∧
    (handleFetch env req).1.status = 200 ∧
    (handleFetch env req).1.body = "Error thrown " ++ e ∧
    (handleFetch env req).1.headers = [("Content-Type", "text/plain;charset=UTF-8")] := by
  unfold handleFetch
  rw [h]
  exact ⟨rfl, rfl, rfl, rfl⟩

/-- C9 witness: a malformed inbound JSON body is caught and surfaced as the
diagnostic response. -/
theorem c9_witness :
    handleFetch c9Env c9Req = (errResponse "Unexpected token in JSON", []) ∧
    (handleFetch c9Env c9Req).1.status = 200 ∧
    (handleFetch c9Env c9Req).1.body = "Error thrown " ++ "Unexpected token in JSON" ∧
    (handleFetch c9Env c9Req).1.headers = [("Content-Type", "text/plain;charset=UTF-8")] :=
  c9_theorem c9Env c9Req "Unexpected token in JSON" [] rfl

/-- C10: the allow-list test is an unanchored regex search, so origins that
merely contain the production domain as a substring pass it — including a
host that is not the production domain nor one of its subdomains — and the
response to such an origin carries the echoing CORS header. -/
theorem c10_theorem :
    isAllowedOrigin "https://daodao.zone.evil.example" = true ∧
    isAllowedOrigin "https://notdaodao.zone" = true ∧
    strEndsWith "https://daodao.zone.evil.example" ".daodao.zone" = false ∧
    strEndsWith "https://notdaodao.zone" ".daodao.zone" = false ∧
    ("Access-Control-Allow-Origin", "https://daodao.zone.evil.example") ∈
      (handleFetch c10Env c10Req).1.headers := by decide

/-- Resolution preserves length and records bodies at their original indices. -/
theorem resolveFrom_len_idx (env : Env) (req : Request) :
    ∀ (bodies : List String) (i : Nat) (entries : List BodyEntry),
      resolveEntriesFrom env req i bodies = Except.ok entries →
      entries.length = bodies.length ∧
      ∀ k, k < bodies.length →
        (entries.getD k dfltEntry).index = i + k ∧
        (entries.getD k dfltEntry).body = bodies.getD k ""
  | [], i, entries, h => by
    unfold resolveEntriesFrom at h
    cases h
    exact ⟨rfl, fun k hk => absurd hk (by simp)⟩
  | b :: bs, i, entries, h => by
    unfold resolveEntriesFrom at h
    cases hk : cacheKeyForRequestAndBody req b with
    | error err => rw [hk] at h; cases h
    | ok key =>
      rw [hk] at h
      cases hr : resolveEntriesFrom env req (i + 1) bs with
      | error err => rw [hr] at h; cases h
      | ok rest =>
        rw [hr] at h
        cases h
        obtain ⟨hlen, hidx⟩ := resolveFrom_len_idx env req bs (i + 1) rest hr
        refine ⟨by simp [hlen], fun k hg => ?_⟩
        cases k with
        | zero => exact ⟨by simp, by simp⟩
        | succ k' =>
          have hk' : k' < bs.length := by simpa using hg
          obtain ⟨h1, h2⟩ := hidx k' hk'
          refine ⟨?_, ?_⟩
          · simp only [List.getD_cons_succ]
            rw [h1]; omega
          · simpa using h2

/-- The backfill positional update changes only the `response` field. -/
theorem setResponse_proj : ∀ (l : List BodyEntry) (n : Nat) (r : String),
    (setResponse l n r).map projEntry = l.map projEntry
  | [], _, _ => rfl
  | e :: es, 0, r => rfl
  | e :: es, n + 1, r => by
    show projEntry e :: (setResponse es n r).map projEntry = projEntry e :: es.map projEntry
    rw [setResponse_proj es n r]

/-- The whole backfill loop changes only `response` fields. -/
theorem applyResults_proj (req : Request) :
    ∀ (zs : List (BodyEntry × Json)) (entries : List BodyEntry)
      (pr : List BodyEntry × List (String × String)),
      applyResults req entries zs = Except.ok pr →
      pr.1.map projEntry = entries.map projEntry
  | [], entries, pr, h => by
    unfold applyResults at h
    cases h
    rfl
  | (u, r) :: rest, entries, pr, h => by
    unfold applyResults at h
    cases hk : cacheKeyForRequestAndBody req u.body with
    | error err => rw [hk] at h; cases h
    | ok key =>
      rw [hk] at h
      cases ha : applyResults req (setResponse entries u.index (Json.stringify r)) rest with
      | error err => rw [ha] at h; cases h
      | ok pr' =>
        rw [ha] at h
        cases h
        have := applyResults_proj req rest (setResponse entries u.index (Json.stringify r)) pr' ha
        rw [this, setResponse_proj]

/-- The dispatch phase, when it completes normally, changes only `response`
fields: bodies, original indices and lookup-time cached flags all survive. -/
theorem dispatch_proj (env : Env) (req : Request) (entries out : List BodyEntry)
    (puts : List (String × String))
    (h : dispatchAndBackfill env req entries = Except.ok (DispatchOut.done out puts)) :
    out.map projEntry = entries.map projEntry := by
  simp only [dispatchAndBackfill] at h
  split at h
  · repeat' (first | exact Except.noConfusion h | split at h)
    all_goals
      first
      | exact Except.noConfusion h
      | (simp only [Except.ok.injEq] at h; exact DispatchOut.noConfusion h)
      | (rename_i ha;
         simp only [Except.ok.injEq, DispatchOut.done.injEq] at h;
         obtain ⟨h1, h2⟩ := h;
         rw [← h1];
         exact applyResults_proj req _ entries _ ha)
  · simp only [Except.ok.injEq, DispatchOut.done.injEq] at h
    obtain ⟨h1, h2⟩ := h
    rw [← h1]

/-- Lists with equal projections have equal lengths. -/
theorem map_proj_len (l1 l2 : List BodyEntry) (h : l1.map projEntry = l2.map projEntry) :
    l1.length = l2.length := by
  have := congrArg List.length h
  simpa using this

/-- Componentwise consequences of an equal-projection head pair. -/
theorem projEntry_inj (a b : BodyEntry) (h : projEntry a = projEntry b) :
    a.body = b.body ∧ a.index = b.index ∧ a.cached = b.cached := by
  simpa [projEntry, Prod.ext_iff] using h

/-- Pointwise body/index agreement of lists with equal projections. -/
theorem map_proj_getD : ∀ (l1 l2 : List BodyEntry),
    l1.map projEntry = l2.map projEntry →
    ∀ k, (l1.getD k dfltEntry).body = (l2.getD k dfltEntry).body ∧
         (l1.getD k dfltEntry).index = (l2.getD k dfltEntry).index
  | [], [], _, k => ⟨rfl, rfl⟩
  | [], b :: t2, h, k => by simp at h
  | a :: t1, [], h, k => by simp at h
  | a :: t1, b :: t2, h, k => by
    simp only [List.map_cons, List.cons.injEq] at h
    obtain ⟨hh, ht⟩ := h
    obtain ⟨hb, hi, hc⟩ := projEntry_inj a b hh
    cases k with
    | zero => exact ⟨hb, hi⟩
    | succ k' => simpa using map_proj_getD t1 t2 ht k'

/-- Cached flags agree between lists with equal projections. -/
theorem map_proj_cached : ∀ (l1 l2 : List BodyEntry),
    l1.map projEntry = l2.map projEntry →
    l1.map (fun e => e.cached) = l2.map (fun e => e.cached)
  | [], [], _ => rfl
  | [], b :: t2, h => by simp at h
  | a :: t1, [], h => by simp at h
  | a :: t1, b :: t2, h => by
    simp only [List.map_cons, List.cons.injEq] at h
    obtain ⟨hh, ht⟩ := h
    obtain ⟨hb, hi, hc⟩ := projEntry_inj a b hh
    simp only [List.map_cons, hc, map_proj_cached t1 t2 ht]

/-- The filtered hit-index list is determined by the projections. -/
theorem map_proj_hitlist : ∀ (l1 l2 : List BodyEntry),
    l1.map projEntry = l2.map projEntry →
    (l1.filter (fun e => e.cached)).map (fun e => Json.num (Int.ofNat e.index)) =
    (l2.filter (fun e => e.cached)).map (fun e => Json.num (Int.ofNat e.index))
  | [], [], _ => rfl
  | [], b :: t2, h => by simp at h
  | a :: t1, [], h => by simp at h
  | a :: t1, b :: t2, h => by
    simp only [List.map_cons, List.cons.injEq] at h
    obtain ⟨hh, ht⟩ := h
    obtain ⟨hb, hi, hc⟩ := projEntry_inj a b hh
    have hrec := map_proj_hitlist t1 t2 ht
    simp only [List.filter_cons, hc]
    cases hbc : b.cached with
    | false => simpa using hrec
    | true =>
      rw [if_pos rfl, if_pos rfl, List.map_cons, List.map_cons, hi, hrec]

/-- The hit-index header is determined by the projections. -/
theorem map_proj_hits (l1 l2 : List BodyEntry) (h : l1.map projEntry = l2.map projEntry) :
    cachedIdxHeader l1 = cachedIdxHeader l2 := by
  unfold cachedIdxHeader
  rw [map_proj_hitlist l1 l2 h]

/-- The final batch serialization maps entries one-to-one, in order. -/
theorem mapEntriesJson_spec : ∀ (l : List BodyEntry) (js : List Json),
    mapEntriesJson l = Except.ok js →
    js.length = l.length ∧
    ∀ k, k < l.length → entryFinalJson (l.getD k dfltEntry) = Except.ok (js.getD k Json.null)
  | [], js, h => by
    unfold mapEntriesJson at h
    cases h
    exact ⟨rfl, fun k hk => absurd hk (by simp)⟩
  | e :: es, js, h => by
    unfold mapEntriesJson at h
    cases hj : entryFinalJson e with
    | error err => rw [hj] at h; cases h
    | ok j =>
      rw [hj] at h
      cases hrest : mapEntriesJson es with
      | error err => rw [hrest] at h; cases h
      | ok js' =>
        rw [hrest] at h
        cases h
        obtain ⟨hl, hp⟩ := mapEntriesJson_spec es js' hrest
        refine ⟨by simp [hl], fun k hk => ?_⟩
        cases k with
        | zero => simpa using hj
        | succ k' => simpa using hp k' (by simpa using hk)

/-- The single-entry assembly arm: the response body is the entry response
verbatim, and the `Cached` header is the boolean flag. -/
theorem assemble_single (origin : String) (e : BodyEntry) (resp : HttpResponse)
    (h : assemble origin [e] = Except.ok resp) :
    resp.body = (e.response).getD "" ∧
    ("Cached", Json.stringify (Json.bool e.cached)) ∈ resp.headers := by
  unfold assemble at h
  cases h
  exact ⟨rfl, by simp⟩

/-- The batch assembly arm: a JSON array of the per-entry results, with the
hit-index header. -/
theorem assemble_batch (origin : String) (es : List BodyEntry) (resp : HttpResponse)
    (hne : es.length ≠ 1)
    (h : assemble origin es = Except.ok resp) :
    ∃ elems, mapEntriesJson es = Except.ok elems ∧
      resp.body = Json.stringify (Json.arr elems) ∧
      ("Cached", cachedIdxHeader es) ∈ resp.headers := by
  unfold assemble at h
  split at h
  · simp at hne
  · rename_i hshape
    cases hm : mapEntriesJson es with
    | error err => rw [hm] at h; cases h
    | ok elems =>
      rw [hm] at h
      cases h
      exact ⟨elems, rfl, rfl, by simp⟩

/-- C2 (amended): the processed entry list always has exactly one entry per
inbound call, in original index order; when that list has a single entry
(whether the inbound payload was a lone call or a batch of one) the response
body is that sole result, not wrapped in an array; when it has any other
count the body is a JSON array of exactly one element per call, element k
being the result of call k. -/
theorem c2_theorem (env : Env) (req : Request) (origin : String)
    (bodies : List String) (entries out : List BodyEntry)
    (puts : List (String × String)) (resp : HttpResponse)
    (hres : resolveEntries env req bodies = Except.ok entries)
    (hdisp : dispatchAndBackfill env req entries = Except.ok (DispatchOut.done out puts))
    (hasm : assemble origin out = Except.ok resp) :
    out.length = bodies.length ∧
    (∀ k, k < bodies.length →
      (out.getD k dfltEntry).index = k ∧ (out.getD k dfltEntry).body = bodies.getD k "") ∧
    (bodies.length = 1 → resp.body = ((out.getD 0 dfltEntry).response).getD "") ∧
    (bodies.length ≠ 1 → ∃ elems, mapEntriesJson out = Except.ok elems ∧
      elems.length = bodies.length ∧
      resp.body = Json.stringify (Json.arr elems) ∧
      ∀ k, k < bodies.length →
        entryFinalJson (out.getD k dfltEntry) = Except.ok (elems.getD k Json.null)) := by
  obtain ⟨hlen, hidx⟩ := resolveFrom_len_idx env req bodies 0 entries hres
  have hproj := dispatch_proj env req entries out puts hdisp
  have holen : out.length = bodies.length := by
    rw [map_proj_len out entries hproj, hlen]
  refine ⟨holen, ?_, ?_, ?_⟩
  · intro k hk
    obtain ⟨hbody, hidx2⟩ := map_proj_getD out entries hproj k
    obtain ⟨hi, hb⟩ := hidx k hk
    refine ⟨?_, ?_⟩
    · rw [hidx2, hi]; omega
    · rw [hbody, hb]
  · intro h1
    have : out.length = 1 := by omega
    match out, this with
    | [e], _ =>
      obtain ⟨hb, _⟩ := assemble_single origin e resp hasm
      simpa using hb
  · intro hne
    have hone : out.length ≠ 1 := by omega
    obtain ⟨elems, hmap, hbody, _⟩ := assemble_batch origin out resp hone hasm
    obtain ⟨hel, hpt⟩ := mapEntriesJson_spec out elems hmap
    refine ⟨elems, hmap, by omega, hbody, fun k hk => hpt k (by omega)⟩

/-- C5: a completed dispatch never flips a cached flag — the flags after
backfill equal the lookup-time flags — and the batch-shape `Cached` header is
exactly the hit-index list computed from the lookup-time entries. -/
theorem c5_theorem (env : Env) (req : Request) (origin : String)
    (entries out : List BodyEntry) (puts : List (String × String))
    (resp : HttpResponse)
    (hdisp : dispatchAndBackfill env req entries = Except.ok (DispatchOut.done out puts))
    (hasm : assemble origin out = Except.ok resp)
    (hne : out.length ≠ 1) :
    out.map (fun e => e.cached) = entries.map (fun e => e.cached) ∧
    ("Cached", cachedIdxHeader entries) ∈ resp.headers := by
  have hproj := dispatch_proj env req entries out puts hdisp
  refine ⟨map_proj_cached out entries hproj, ?_⟩
  obtain ⟨elems, hmap, hbody, hmem⟩ := assemble_batch origin out resp hne hasm
  rw [← map_proj_hits out entries hproj]
  exact hmem

/-- With more than one miss, a non-array origin response makes the dispatch
fail with the shape error. -/
theorem dispatch_not_array (env : Env) (req : Request) (entries : List BodyEntry)
    (ub : Option String) (resp : OriginResponse) (j : Json)
    (hn : 1 < (entries.filter (fun x => !x.cached)).length)
    (hub : upstreamRequestBody (entries.filter (fun x => !x.cached)) = Except.ok ub)
    (hf : env.originFetch ub = Except.ok resp)
    (hp : Json.parse resp.body = some j)
    (hna : ∀ rs, j ≠ Json.arr rs) :
    dispatchAndBackfill env req entries =
      Except.error "Batched responses should be an array of responses." := by
  simp only [dispatchAndBackfill]
  rw [if_pos (by omega : (entries.filter (fun x => !x.cached)).length > 0)]
  simp only [hub]
  rw [if_pos hn]
  cases j with
  | arr rs => exact absurd rfl (hna rs)
  | null => simp only [hf, hp]
  | bool b => simp only [hf, hp]
  | num n => simp only [hf, hp]
  | str s => simp only [hf, hp]
  | obj o => simp only [hf, hp]

/-- With more than one miss, an origin array of the wrong length makes the
dispatch fail with the count error. -/
theorem dispatch_count (env : Env) (req : Request) (entries : List BodyEntry)
    (ub : Option String) (resp : OriginResponse) (rs : List Json)
    (hn : 1 < (entries.filter (fun x => !x.cached)).length)
    (hub : upstreamRequestBody (entries.filter (fun x => !x.cached)) = Except.ok ub)
    (hf : env.originFetch ub = Except.ok resp)
    (hp : Json.parse resp.body = some (Json.arr rs))
    (hlen : (entries.filter (fun x => !x.cached)).length ≠ rs.length) :
    dispatchAndBackfill env req entries =
      Except.error "Batched responses do not matched uncached requests." := by
  simp only [dispatchAndBackfill]
  rw [if_pos (by omega : (entries.filter (fun x => !x.cached)).length > 0)]
  simp only [hub]
  rw [if_pos hn]
  simp only [hf, hp]
  rw [if_pos hlen]

/-- C3: whenever more than one call is uncached and the origin responded, a
JSON response that is not an array fails the dispatch with the shape error,
and an array of the wrong length fails it with the count error; in both
cases the dispatch produces an error, not per-call results. -/
theorem c3_theorem (env : Env) (req : Request) (entries : List BodyEntry)
    (ub : Option String) (resp : OriginResponse)
    (hn : 1 < (entries.filter (fun x => !x.cached)).length)
    (hub : upstreamRequestBody (entries.filter (fun x => !x.cached)) = Except.ok ub)
    (hf : env.originFetch ub = Except.ok resp) :
    (∀ j, Json.parse resp.body = some j → (∀ rs, j ≠ Json.arr rs) →
      dispatchAndBackfill env req entries =
        Except.error "Batched responses should be an array of responses.") ∧
    (∀ rs, Json.parse resp.body = some (Json.arr rs) →
      (entries.filter (fun x => !x.cached)).length ≠ rs.length →
      dispatchAndBackfill env req entries =
        Except.error "Batched responses do not matched uncached requests.") :=
  ⟨fun j hp hna => dispatch_not_array env req entries ub resp j hn hub hf hp hna,
   fun rs hp hlen => dispatch_count env req entries ub resp rs hn hub hf hp hlen⟩

/-- C3 witness: two concrete uncached calls; an origin object response hits
the shape error, an origin one-element array hits the count error. -/
theorem c3_witness :
    dispatchAndBackfill c3EnvObj reqBatch12 missEntries12 =
      Except.error "Batched responses should be an array of responses." ∧
    dispatchAndBackfill c3EnvShort reqBatch12 missEntries12 =
      Except.error "Batched responses do not matched uncached requests." :=
  ⟨(c3_theorem c3EnvObj reqBatch12 missEntries12 (some "[1,2]")
      { status := 200, contentType := some "application/json", body := "\x7b\x7d" }
      (by decide) rfl rfl).1 (Json.obj []) rfl (fun rs hco => Json.noConfusion hco),
   (c3_theorem c3EnvShort reqBatch12 missEntries12 (some "[1,2]")
      { status := 200, contentType := some "application/json", body := "[5]" }
      (by decide) rfl rfl).2 [Json.num 5] rfl (by decide)⟩

/-- C4 (amended): when MORE THAN ONE call is uncached and the origin answers
the re-batched dispatch with an array whose length differs from the number of
dispatched misses, the whole request fails with the count error and the cache
write list is empty — no `cache.put` was issued for any call of the batch. -/
theorem c4_theorem (env : Env) (req : Request) (bodies : List String)
    (entries : List BodyEntry) (ub : Option String) (resp : OriginResponse)
    (rs : List Json)
    (hmeth : req.method = "POST")
    (hsplit : splitBodies req = Except.ok bodies)
    (hres : resolveEntries env req bodies = Except.ok entries)
    (hn : 1 < (entries.filter (fun x => !x.cached)).length)
    (hub : upstreamRequestBody (entries.filter (fun x => !x.cached)) = Except.ok ub)
    (hf : env.originFetch ub = Except.ok resp)
    (hp : Json.parse resp.body = some (Json.arr rs))
    (hlen : (entries.filter (fun x => !x.cached)).length ≠ rs.length) :
    handleFetch env req =
      (errResponse "Batched responses do not matched uncached requests.", []) := by
  have hd := dispatch_count env req entries ub resp rs hn hub hf hp hlen
  unfold handleFetch handleTry
  rw [hmeth]
  simp only [hsplit, hres, hd]
  rfl

/-- C4 witness: two missed calls, a one-element origin array: the request
fails and no cache write happens. -/
theorem c4_witness :
    handleFetch c3EnvShort reqBatch12 =
      (errResponse "Batched responses do not matched uncached requests.", []) :=
  c4_theorem c3EnvShort reqBatch12 ["1", "2"] missEntries12 (some "[1,2]")
    { status := 200, contentType := some "application/json", body := "[5]" }
    [Json.num 5] rfl rfl rfl (by decide) rfl rfl rfl (by decide)

/-- C4 counterexample: with exactly ONE uncached call the code performs no
length validation at all — here the origin answers the single dispatched miss
with a two-element array (length 2 differs from the 1 dispatched miss), yet
the request SUCCEEDS (no shape/count error) and a cache write IS issued, so
the premise of the claim holds while both halves of its conclusion fail. -/
theorem c4_counterexample :
    handleFetch c4Env c4Req =
      ({ status := 200, body := "[1,2]",
         headers := [("Content-Type", "application/json"), ("Cached", "false")] },
       [("https://rpc.example.com/" ++ sha1 "1", "[1,2]")]) := rfl

/-- C8: when exactly one call is uncached and its raw body is non-empty, the
body dispatched to the origin is exactly that raw body — which, for a body
that begins with a brace (a JSON-RPC object), cannot be the serialization of
any re-batched JSON array — and the dispatch consults the origin fetch at
precisely that body, as the propagation of its failure shows. -/
theorem c8_theorem (env : Env) (req : Request) (entries : List BodyEntry)
    (e : BodyEntry)
    (hu : entries.filter (fun x => !x.cached) = [e])
    (hne : e.body ≠ "") :
    upstreamRequestBody (entries.filter (fun x => !x.cached)) = Except.ok (some e.body) ∧
    (jsStartsWithBrace e.body = true → ∀ l, e.body ≠ Json.stringify (Json.arr l)) ∧
    (∀ msg, env.originFetch (some e.body) = Except.error msg →
      dispatchAndBackfill env req entries = Except.error msg) := by
  have hub : upstreamRequestBody (entries.filter (fun x => !x.cached)) =
      Except.ok (some e.body) := by
    rw [hu]
    unfold upstreamRequestBody
    rw [if_neg (by simp)]
    simp [strTruthy_of_ne e.body hne]
  refine ⟨hub, ?_, ?_⟩
  · intro hbrace l heq
    have hgot : jsStartsWithBrace (Json.stringify (Json.arr l)) = true := by
      rw [← heq]; exact hbrace
    have harr : jsStartsWithBrace (Json.stringify (Json.arr l)) = false := by
      show (("[" ++ stringifyElems l ++ "]").data.head? == some '\x7b') = false
      rw [String.data_append, String.data_append]
      simp
    rw [harr] at hgot
    cases hgot
  · intro msg hmsg
    simp only [dispatchAndBackfill]
    rw [if_pos (by rw [hu]; simp : (entries.filter (fun x => !x.cached)).length > 0)]
    simp only [hub]
    rw [if_neg (by rw [hu]; simp : ¬(entries.filter (fun x => !x.cached)).length > 1)]
    simp only [hmsg]

/-- C8 witness: three calls, two hits, one miss whose JSON-RPC object body is
forwarded as the sole origin request body. -/
theorem c8_witness :
    upstreamRequestBody (c8Entries.filter (fun x => !x.cached)) =
      Except.ok (some c8Miss.body) ∧
    (jsStartsWithBrace c8Miss.body = true →
      ∀ l, c8Miss.body ≠ Json.stringify (Json.arr l)) ∧
    (∀ msg, c8Env.originFetch (some c8Miss.body) = Except.error msg →
      dispatchAndBackfill c8Env (reqJsonOf "x") c8Entries = Except.error msg) :=
  c8_theorem c8Env (reqJsonOf "x") c8Entries c8Miss rfl (by decide)

/-- C2 counterexample: the inbound payload IS a batch (a JSON array) of N = 1
call, yet the response body is the bare single result — not a JSON array of
one element — and the `Cached` header is the boolean form: the code branches
on the processed-call count, not on whether the inbound payload was an
array. -/
theorem c2_counterexample :
    Json.parse c2Req.body = some (Json.arr [Json.obj [("id", Json.num 1)]]) ∧
    handleFetch c2Env c2Req =
      ({ status := 200, body := "\x7b\"r\":2\x7d",
         headers := [("Content-Type", "application/json"), ("Cached", "true")] }, []) ∧
    "\x7b\"r\":2\x7d" ≠ Json.stringify (Json.arr [Json.obj [("r", Json.num 2)]]) :=
  ⟨rfl, rfl, by decide⟩

/-- C2 witness: a two-call batch, one hit and one backfilled miss, assembled
as a two-element array in original order. -/
theorem c2_witness :
    c5EntriesOut.length = (["1", "2"] : List String).length ∧
    (∀ k, k < (["1", "2"] : List String).length →
      (c5EntriesOut.getD k dfltEntry).index = k ∧
      (c5EntriesOut.getD k dfltEntry).body = (["1", "2"] : List String).getD k "") ∧
    ((["1", "2"] : List String).length = 1 →
      c5Resp.body = ((c5EntriesOut.getD 0 dfltEntry).response).getD "") ∧
    ((["1", "2"] : List String).length ≠ 1 → ∃ elems,
      mapEntriesJson c5EntriesOut = Except.ok elems ∧
      elems.length = (["1", "2"] : List String).length ∧
      c5Resp.body = Json.stringify (Json.arr elems) ∧
      ∀ k, k < (["1", "2"] : List String).length →
        entryFinalJson (c5EntriesOut.getD k dfltEntry) = Except.ok (elems.getD k Json.null)) :=
  c2_theorem c5Env reqBatch12 "" ["1", "2"] c5EntriesIn c5EntriesOut c5Puts c5Resp rfl rfl rfl

/-- C5 witness: one hit plus one backfilled miss keep their lookup-time flags,
and the header lists exactly the hit index 0. -/
theorem c5_witness :
    c5EntriesOut.map (fun e => e.cached) = c5EntriesIn.map (fun e => e.cached) ∧
    ("Cached", cachedIdxHeader c5EntriesIn) ∈ c5Resp.headers :=
  c5_theorem c5Env reqBatch12 "" c5EntriesIn c5EntriesOut c5Puts c5Resp rfl rfl (by decide)
